import Mathlib

/-!
Shallow embedding of the trajectory-tracking simulation kernel of the
repository (src/components/RobotSimulation.tsx together with
src/constants.ts and src/types.ts).  JavaScript double arithmetic is
idealised as real arithmetic; the mutable per-tick refs become an explicit
`SimState` record threaded through a pure `updatePhysics` step function.
-/

namespace RobotSim

open Classical

/-- Mirrors `SIM_CONSTANTS.FPS` in src/constants.ts. -/
def FPS : ℕ := 60

/-- Mirrors `SIM_CONSTANTS.TRAIL_LENGTH` in src/constants.ts. -/
def TRAIL_LENGTH : ℕ := 200

/-- Mirrors `enum TrajectoryType` in src/constants.ts. -/
inductive TrajectoryType
  | CIRCLE
  | FIGURE_EIGHT
  deriving DecidableEq

/-- Mirrors `ControlConfig` in src/types.ts (the fields read by the
simulation component). -/
structure Config where
  isAdaptive : Bool
  hasLoad : Bool
  trajectory : TrajectoryType
  isPlaying : Bool
  deriving DecidableEq

/-- Mirrors `robotRef.current = { x, y, theta, v, w }` in
src/components/RobotSimulation.tsx line 16. -/
structure Robot where
  x : ℝ
  y : ℝ
  theta : ℝ
  v : ℝ
  w : ℝ

/-- Mirrors `adaptiveParamsRef.current = { thetaM, thetaI }` in
src/components/RobotSimulation.tsx line 17. -/
structure Params where
  thetaM : ℝ
  thetaI : ℝ

/-- A trail entry `{x, y}` as stored in `trailRef` / `refTrailRef`. -/
abbrev TrailPoint := ℝ × ℝ

/-- The whole mutable simulation state held across ticks by the refs in
src/components/RobotSimulation.tsx lines 15-19. -/
structure SimState where
  time : ℝ
  robot : Robot
  params : Params
  trail : List TrailPoint
  refTrail : List TrailPoint

/-- The record passed to `onUpdate` in src/components/RobotSimulation.tsx
lines 153-158. -/
structure Telemetry where
  time : ℝ
  error : ℝ
  theta1 : ℝ
  theta2 : ℝ

/-- Reset state installed when the trajectory changes,
src/components/RobotSimulation.tsx lines 22-28. -/
def initState : SimState :=
  { time := 0
  , robot := { x := 0.2, y := 0, theta := 0, v := 0, w := 0 }
  , params := { thetaM := 1.0, thetaI := 1.0 }
  , trail := []
  , refTrail := [] }

/-- The adaptive parameter update, src/components/RobotSimulation.tsx
lines 109-123: when `isAdaptive`, `thetaM += dt * (gamma * adaptationError
- sigma * thetaM)` where `adaptationError = (distError > 0.05) ? (realMass
- thetaM) : 0`; otherwise `thetaM` is set to `1.0`. -/
noncomputable def updateEstimate (isAdaptive : Bool) (dt thetaM distError realMass : ℝ) : ℝ :=
  if isAdaptive then
    let gamma : ℝ := 0.5
    let sigma : ℝ := 0.01
    let adaptationError : ℝ := if distError > 0.05 then realMass - thetaM else 0
    thetaM + dt * (gamma * adaptationError - sigma * thetaM)
  else
    1.0

/-- The true plant mass, src/components/RobotSimulation.tsx lines 99-101:
`baseMass = 1.0`, `loadMass = hasLoad ? 2.5 : 0.0`, `realMass = baseMass +
loadMass`. -/
def realMassOf (hasLoad : Bool) : ℝ :=
  let baseMass : ℝ := 1.0
  let loadMass : ℝ := if hasLoad then 2.5 else 0.0
  baseMass + loadMass

/-- The saturation of the linear command velocity,
src/components/RobotSimulation.tsx line 93: `if (cmdV > 1.0) cmdV = 1.0`. -/
noncomputable def saturateV (v : ℝ) : ℝ :=
  if v > 1.0 then 1.0 else v

/-- The plant dynamics response, src/components/RobotSimulation.tsx
lines 132-138: `dynamicsFactor = thetaM / realMass`, `skidFactor = 1.0`,
`actualV = cmdV * dynamicsFactor * skidFactor` and likewise `actualW`. -/
noncomputable def applyDynamics (cmdV cmdW thetaM realMass : ℝ) : ℝ × ℝ :=
  let dynamicsFactor := thetaM / realMass
  let skidFactor : ℝ := 1.0
  (cmdV * dynamicsFactor * skidFactor, cmdW * dynamicsFactor * skidFactor)

/-- First normalization loop, src/components/RobotSimulation.tsx line 86:
`while (angleDiff > Math.PI) angleDiff -= 2 * Math.PI;`. -/
noncomputable def subLoop (x : ℝ) : ℝ :=
  if x > Real.pi then subLoop (x - 2 * Real.pi) else x
termination_by Nat.ceil ((x - Real.pi) / (2 * Real.pi))
decreasing_by
  rename_i h
  have hpi := Real.pi_pos
  have h2 : (0 : ℝ) < 2 * Real.pi := by linarith
  have key : (x - 2 * Real.pi - Real.pi) / (2 * Real.pi)
      = (x - Real.pi) / (2 * Real.pi) - 1 := by
    field_simp
    ring
  rw [key]
  have hapos : 0 < (x - Real.pi) / (2 * Real.pi) := div_pos (by linarith) h2
  have h1 : 1 ≤ Nat.ceil ((x - Real.pi) / (2 * Real.pi)) :=
    Nat.one_le_ceil_iff.mpr hapos
  have hle : Nat.ceil ((x - Real.pi) / (2 * Real.pi) - 1)
      ≤ Nat.ceil ((x - Real.pi) / (2 * Real.pi)) - 1 := by
    rw [Nat.ceil_le, Nat.cast_sub h1]
    have := Nat.le_ceil ((x - Real.pi) / (2 * Real.pi))
    push_cast
    linarith
  omega

/-- Second normalization loop, src/components/RobotSimulation.tsx line 87:
`while (angleDiff < -Math.PI) angleDiff += 2 * Math.PI;`. -/
noncomputable def addLoop (x : ℝ) : ℝ :=
  if x < -Real.pi then addLoop (x + 2 * Real.pi) else x
termination_by Nat.ceil ((-Real.pi - x) / (2 * Real.pi))
decreasing_by
  rename_i h
  have hpi := Real.pi_pos
  have h2 : (0 : ℝ) < 2 * Real.pi := by linarith
  have key : (-Real.pi - (x + 2 * Real.pi)) / (2 * Real.pi)
      = (-Real.pi - x) / (2 * Real.pi) - 1 := by
    field_simp
    ring
  rw [key]
  have hapos : 0 < (-Real.pi - x) / (2 * Real.pi) := div_pos (by linarith) h2
  have h1 : 1 ≤ Nat.ceil ((-Real.pi - x) / (2 * Real.pi)) :=
    Nat.one_le_ceil_iff.mpr hapos
  have hle : Nat.ceil ((-Real.pi - x) / (2 * Real.pi) - 1)
      ≤ Nat.ceil ((-Real.pi - x) / (2 * Real.pi)) - 1 := by
    rw [Nat.ceil_le, Nat.cast_sub h1]
    have := Nat.le_ceil ((-Real.pi - x) / (2 * Real.pi))
    push_cast
    linarith
  omega

/-- The full angle normalization applied to `targetTheta - theta`,
src/components/RobotSimulation.tsx lines 83-87 (the two `while` loops run
in this order). -/
noncomputable def normalizeAngle (x : ℝ) : ℝ :=
  addLoop (subLoop x)

/-- The subtraction loop always exits at a value `≤ π`. -/
theorem subLoop_le (x : ℝ) : subLoop x ≤ Real.pi := by
  rw [subLoop]
  split
  · exact subLoop_le (x - 2 * Real.pi)
  · rename_i h
    exact not_lt.mp h
termination_by Nat.ceil ((x - Real.pi) / (2 * Real.pi))
decreasing_by
  rename_i h
  have hpi := Real.pi_pos
  have h2 : (0 : ℝ) < 2 * Real.pi := by linarith
  have key : (x - 2 * Real.pi - Real.pi) / (2 * Real.pi)
      = (x - Real.pi) / (2 * Real.pi) - 1 := by
    field_simp
    ring
  rw [key]
  have hapos : 0 < (x - Real.pi) / (2 * Real.pi) := div_pos (by linarith) h2
  have h1 : 1 ≤ Nat.ceil ((x - Real.pi) / (2 * Real.pi)) :=
    Nat.one_le_ceil_iff.mpr hapos
  have hle : Nat.ceil ((x - Real.pi) / (2 * Real.pi) - 1)
      ≤ Nat.ceil ((x - Real.pi) / (2 * Real.pi)) - 1 := by
    rw [Nat.ceil_le, Nat.cast_sub h1]
    have := Nat.le_ceil ((x - Real.pi) / (2 * Real.pi))
    push_cast
    linarith
  omega

/-- The addition loop always exits at a value `≥ -π`. -/
theorem neg_pi_le_addLoop (x : ℝ) : -Real.pi ≤ addLoop x := by
  rw [addLoop]
  split
  · exact neg_pi_le_addLoop (x + 2 * Real.pi)
  · rename_i h
    exact not_lt.mp h
termination_by Nat.ceil ((-Real.pi - x) / (2 * Real.pi))
decreasing_by
  rename_i h
  have hpi := Real.pi_pos
  have h2 : (0 : ℝ) < 2 * Real.pi := by linarith
  have key : (-Real.pi - (x + 2 * Real.pi)) / (2 * Real.pi)
      = (-Real.pi - x) / (2 * Real.pi) - 1 := by
    field_simp
    ring
  rw [key]
  have hapos : 0 < (-Real.pi - x) / (2 * Real.pi) := div_pos (by linarith) h2
  have h1 : 1 ≤ Nat.ceil ((-Real.pi - x) / (2 * Real.pi)) :=
    Nat.one_le_ceil_iff.mpr hapos
  have hle : Nat.ceil ((-Real.pi - x) / (2 * Real.pi) - 1)
      ≤ Nat.ceil ((-Real.pi - x) / (2 * Real.pi)) - 1 := by
    rw [Nat.ceil_le, Nat.cast_sub h1]
    have := Nat.le_ceil ((-Real.pi - x) / (2 * Real.pi))
    push_cast
    linarith
  omega

/-- The addition loop preserves the upper bound `≤ π`. -/
theorem addLoop_le (x : ℝ) (hx : x ≤ Real.pi) : addLoop x ≤ Real.pi := by
  rw [addLoop]
  split
  · rename_i h
    exact addLoop_le (x + 2 * Real.pi) (by linarith)
  · exact hx
termination_by Nat.ceil ((-Real.pi - x) / (2 * Real.pi))
decreasing_by
  rename_i h
  have hpi := Real.pi_pos
  have h2 : (0 : ℝ) < 2 * Real.pi := by linarith
  have key : (-Real.pi - (x + 2 * Real.pi)) / (2 * Real.pi)
      = (-Real.pi - x) / (2 * Real.pi) - 1 := by
    field_simp
    ring
  rw [key]
  have hapos : 0 < (-Real.pi - x) / (2 * Real.pi) := div_pos (by linarith) h2
  have h1 : 1 ≤ Nat.ceil ((-Real.pi - x) / (2 * Real.pi)) :=
    Nat.one_le_ceil_iff.mpr hapos
  have hle : Nat.ceil ((-Real.pi - x) / (2 * Real.pi) - 1)
      ≤ Nat.ceil ((-Real.pi - x) / (2 * Real.pi)) - 1 := by
    rw [Nat.ceil_le, Nat.cast_sub h1]
    have := Nat.le_ceil ((-Real.pi - x) / (2 * Real.pi))
    push_cast
    linarith
  omega

/-- Claim C5, counterexample: at raw difference `-π` neither loop fires, so
the normalized result is `-π` itself, which does not lie in the half-open
interval `(-π, π]` the claim asserts. -/
theorem C5_normalize_counterexample :
    normalizeAngle (-Real.pi) = -Real.pi ∧
      ¬(-Real.pi < normalizeAngle (-Real.pi)
        ∧ normalizeAngle (-Real.pi) ≤ Real.pi) := by
  have hpi := Real.pi_pos
  have h1 : subLoop (-Real.pi) = -Real.pi := by
    rw [subLoop, if_neg (by linarith : ¬(-Real.pi > Real.pi))]
  have h2 : addLoop (-Real.pi) = -Real.pi := by
    rw [addLoop, if_neg (lt_irrefl (-Real.pi))]
  have hval : normalizeAngle (-Real.pi) = -Real.pi := by
    rw [normalizeAngle, h1, h2]
  refine ⟨hval, ?_⟩
  rw [hval]
  intro hc
  exact lt_irrefl _ hc.1

/-- Claim C5 (amended): the normalization loop terminates for every raw
heading difference (it is a total function here), and its result lies in
the closed interval `[-π, π]` — the endpoint `-π` is attainable, so the
interval is closed on the left, not open as the claim states. -/
theorem C5_normalize_bounds (x : ℝ) :
    -Real.pi ≤ normalizeAngle x ∧ normalizeAngle x ≤ Real.pi := by
  rw [normalizeAngle]
  exact ⟨neg_pi_le_addLoop (subLoop x), addLoop_le (subLoop x) (subLoop_le x)⟩

/-- The reference point with display derivative, src/components/
RobotSimulation.tsx lines 30-54. -/
structure RefPoint where
  x : ℝ
  y : ℝ
  dx : ℝ
  dy : ℝ

/-- Mirrors `getReferencePoint` in src/components/RobotSimulation.tsx
lines 30-54 (the trajectory kind is read from the configuration). -/
noncomputable def getReferencePoint (trajectory : TrajectoryType) (t : ℝ) : RefPoint :=
  let speed : ℝ := 0.5
  match trajectory with
  | .CIRCLE =>
    let R : ℝ := 0.8
    { x := R * Real.cos (t * speed)
    , y := R * Real.sin (t * speed)
    , dx := -R * speed * Real.sin (t * speed)
    , dy := R * speed * Real.cos (t * speed) }
  | .FIGURE_EIGHT =>
    let a : ℝ := 1.0
    let sint := Real.sin (t * speed)
    let cost := Real.cos (t * speed)
    let den := 1 + sint * sint
    { x := a * cost / den
    , y := a * cost * sint / den
    , dx := -a * sint * (3 + sint * sint) / (den * den) * speed
    , dy := a * (1 - 3 * sint * sint) / (den * den) * speed }

/-- Claim C6: for every `t ≥ 0` the CIRCLE reference point lies at distance
exactly 0.8 from the origin: `x(t)^2 + y(t)^2 = 0.8^2`. -/
theorem C6_circle_radius (t : ℝ) (h : 0 ≤ t) :
    (getReferencePoint TrajectoryType.CIRCLE t).x ^ 2
      + (getReferencePoint TrajectoryType.CIRCLE t).y ^ 2 = 0.8 ^ 2 := by
  simp only [getReferencePoint]
  have hs := Real.sin_sq_add_cos_sq (t * 0.5)
  nlinarith [hs]

/-- Witness for C6 at `t = 0`. -/
theorem C6_circle_radius_witness :
    (0 : ℝ) ≤ 0 ∧
      (getReferencePoint TrajectoryType.CIRCLE 0).x ^ 2
        + (getReferencePoint TrajectoryType.CIRCLE 0).y ^ 2 = 0.8 ^ 2 :=
  ⟨le_refl 0, C6_circle_radius 0 (le_refl 0)⟩

/-- Claim C1, counterexample: with adaptation enabled, `thetaM = 1`,
`distError = 0 ≤ 0.05` (inside the dead-zone), load present and the tick
step `dt = 1/60`, the estimate does change: the leakage term still applies,
so the claim that `thetaM` is left unchanged is false at this input. -/
theorem C1_deadzone_counterexample :
    updateEstimate true (1 / 60) 1 0 (realMassOf true) ≠ 1 := by
  simp only [updateEstimate, realMassOf]
  norm_num

/-- Claim C1 (amended): in a tick with adaptation enabled and
`distError ≤ 0.05` (the dead-zone), the gradient driving term is zeroed but
the sigma-leakage still applies: the new estimate equals
`thetaM - dt * (0.01 * thetaM)`, not `thetaM` itself. -/
theorem C1_deadzone_leakage (dt thetaM distError realMass : ℝ)
    (h : distError ≤ 0.05) :
    updateEstimate true dt thetaM distError realMass
      = thetaM - dt * (0.01 * thetaM) := by
  simp only [updateEstimate, if_neg (not_lt.mpr h), if_pos]
  ring

/-- Witness for C1 (amended) at `dt = 1/60`, `thetaM = 1`, `distError = 0`,
`realMass = 3.5`. -/
theorem C1_deadzone_leakage_witness :
    (0 : ℝ) ≤ 0.05 ∧
      updateEstimate true (1 / 60) 1 0 3.5 = 1 - (1 / 60) * (0.01 * 1) :=
  ⟨by norm_num, C1_deadzone_leakage (1 / 60) 1 0 3.5 (by norm_num)⟩

/-- Claim C2: in a tick with adaptation enabled and `distError > 0.05`, the
new estimate equals `thetaM + dt * (0.5 * (trueMass - thetaM) - 0.01 *
thetaM)`, where the true mass is `1.0` plus `2.5` exactly when the load is
present. -/
theorem C2_adaptation_law (dt thetaM distError : ℝ) (hasLoad : Bool)
    (h : distError > 0.05) :
    updateEstimate true dt thetaM distError (realMassOf hasLoad)
        = thetaM + dt * (0.5 * (realMassOf hasLoad - thetaM) - 0.01 * thetaM)
      ∧ realMassOf hasLoad = 1.0 + (if hasLoad then 2.5 else 0.0) := by
  constructor
  · simp [updateEstimate, h]
  · simp [realMassOf]

/-- Witness for C2 at `dt = 1/60`, `thetaM = 1`, `distError = 1`, load
present. -/
theorem C2_adaptation_law_witness :
    (1 : ℝ) > 0.05 ∧
      (updateEstimate true (1 / 60) 1 1 (realMassOf true)
          = 1 + (1 / 60) * (0.5 * (realMassOf true - 1) - 0.01 * 1)
        ∧ realMassOf true = 1.0 + (if true then 2.5 else 0.0)) :=
  ⟨by norm_num, C2_adaptation_law (1 / 60) 1 1 true (by norm_num)⟩

/-- Claim C7: for all commanded velocities, estimate and positive true
mass, the achieved velocities are exactly `cmdV * (thetaM / trueMass)` and
`cmdW * (thetaM / trueMass)`; no further clamping is applied (the skid
factor is 1). -/
theorem C7_plant_dynamics (cmdV cmdW thetaM trueMass : ℝ)
    (h : 0 < trueMass) :
    applyDynamics cmdV cmdW thetaM trueMass
      = (cmdV * (thetaM / trueMass), cmdW * (thetaM / trueMass)) := by
  norm_num [applyDynamics]

/-- Witness for C7 at `cmdV = 2`, `cmdW = 3`, `thetaM = 1`,
`trueMass = 2`. -/
theorem C7_plant_dynamics_witness :
    (0 : ℝ) < 2 ∧
      applyDynamics 2 3 1 2 = ((2 : ℝ) * (1 / 2), (3 : ℝ) * (1 / 2)) :=
  ⟨by norm_num, C7_plant_dynamics 2 3 1 2 (by norm_num)⟩

/-- JavaScript `%` (as used in `timeRef.current % 0.1`,
src/components/RobotSimulation.tsx line 146).  JS `%` truncates toward
zero; for the nonnegative operands produced by the simulation it coincides
with this floor-based remainder. -/
noncomputable def jsMod (a b : ℝ) : ℝ :=
  a - b * ((⌊a / b⌋ : ℤ) : ℝ)

/-- `Number(t.toFixed(1))`, src/components/RobotSimulation.tsx line 154:
rounding to one decimal place. -/
noncomputable def round1 (t : ℝ) : ℝ :=
  ((⌊t * 10 + 1 / 2⌋ : ℤ) : ℝ) / 10

/-- `Math.atan2(y, x)`, src/components/RobotSimulation.tsx line 82,
modelled by the complex argument of `x + y·i`. -/
noncomputable def atan2 (y x : ℝ) : ℝ :=
  Complex.arg ⟨x, y⟩

/-- One trail update, src/components/RobotSimulation.tsx lines 147-151:
`push` the new point at the back, then `shift` (drop the oldest, front)
when the length exceeds `TRAIL_LENGTH`. -/
def pushTrim (l : List TrailPoint) (p : TrailPoint) : List TrailPoint :=
  let l2 := l ++ [p]
  if l2.length > TRAIL_LENGTH then l2.tail else l2

/-- One simulation tick, `updatePhysics` in
src/components/RobotSimulation.tsx lines 56-160, as a pure step function:
it returns the new simulation state together with the telemetry sample
passed to `onUpdate` when one is emitted. -/
noncomputable def updatePhysics (config : Config) (s : SimState) : SimState × Option Telemetry :=
  if config.isPlaying = false then (s, none) else
  let dt : ℝ := 1 / (FPS : ℝ)
  let t := s.time + dt
  let ref := getReferencePoint config.trajectory t
  let dx_global := ref.x - s.robot.x
  let dy_global := ref.y - s.robot.y
  let distError := Real.sqrt (dx_global * dx_global + dy_global * dy_global)
  let kv : ℝ := 2.0
  let kw : ℝ := 4.0
  let targetTheta := atan2 dy_global dx_global
  let angleDiff := normalizeAngle (targetTheta - s.robot.theta)
  let cmdV := saturateV (kv * distError)
  let cmdW := kw * angleDiff
  let realMass := realMassOf config.hasLoad
  let thetaM2 := updateEstimate config.isAdaptive dt s.params.thetaM distError realMass
  let acts := applyDynamics cmdV cmdW thetaM2 realMass
  let robot2 : Robot :=
    { x := s.robot.x + acts.1 * Real.cos s.robot.theta * dt
    , y := s.robot.y + acts.1 * Real.sin s.robot.theta * dt
    , theta := s.robot.theta + acts.2 * dt
    , v := s.robot.v
    , w := s.robot.w }
  let params2 : Params := { thetaM := thetaM2, thetaI := s.params.thetaI }
  if jsMod t 0.1 < dt then
    ({ time := t
     , robot := robot2
     , params := params2
     , trail := pushTrim s.trail (robot2.x, robot2.y)
     , refTrail := pushTrim s.refTrail (ref.x, ref.y) },
     some { time := round1 t
          , error := distError
          , theta1 := thetaM2
          , theta2 := s.params.thetaI })
  else
    ({ time := t
     , robot := robot2
     , params := params2
     , trail := s.trail
     , refTrail := s.refTrail }, none)

/-- A run of the simulation: fold `updatePhysics` over the per-tick
configurations (the UI may change the configuration between ticks). -/
noncomputable def runSim (cfgs : List Config) (s : SimState) : SimState :=
  match cfgs with
  | [] => s
  | c :: rest => runSim rest (updatePhysics c s).1

/-- A paused tick returns the state unchanged and emits nothing. -/
theorem updatePhysics_paused (cfg : Config) (s : SimState)
    (hp : cfg.isPlaying = false) :
    updatePhysics cfg s = (s, none) := by
  rw [updatePhysics, if_pos hp]

/-- In a playing tick, the new `thetaM` is `updateEstimate` applied to the
old one at the tick's own distance error. -/
theorem updatePhysics_thetaM (cfg : Config) (s : SimState)
    (hp : ¬(cfg.isPlaying = false)) :
    ∃ dist, ((updatePhysics cfg s).1).params.thetaM
      = updateEstimate cfg.isAdaptive (1 / (FPS : ℝ)) s.params.thetaM dist
          (realMassOf cfg.hasLoad) := by
  rw [updatePhysics, if_neg hp]
  dsimp only
  split
  · exact ⟨_, rfl⟩
  · exact ⟨_, rfl⟩

/-- In any tick, either both trails are left alone or both receive one
`pushTrim` in the same tick. -/
theorem updatePhysics_trail_cases (cfg : Config) (s : SimState) :
    (((updatePhysics cfg s).1).trail = s.trail
        ∧ ((updatePhysics cfg s).1).refTrail = s.refTrail)
    ∨ (∃ p q, ((updatePhysics cfg s).1).trail = pushTrim s.trail p
        ∧ ((updatePhysics cfg s).1).refTrail = pushTrim s.refTrail q) := by
  by_cases hp : cfg.isPlaying = false
  · rw [updatePhysics_paused cfg s hp]
    exact Or.inl ⟨rfl, rfl⟩
  · rw [updatePhysics, if_neg hp]
    dsimp only
    split
    · exact Or.inr ⟨_, _, rfl, rfl⟩
    · exact Or.inl ⟨rfl, rfl⟩

/-- Length of a trail after one `pushTrim`. -/
theorem pushTrim_length (l : List TrailPoint) (p : TrailPoint) :
    (pushTrim l p).length
      = if l.length + 1 > TRAIL_LENGTH then l.length else l.length + 1 := by
  unfold pushTrim
  simp only [List.length_append, List.length_singleton]
  split
  · simp
  · simp

/-- The estimator update keeps the estimate in `[0, 3.5]` for any step
`dt ∈ [0, 1]` and any distance error. -/
theorem updateEstimate_mem (adapt load : Bool) (dt thetaM dist : ℝ)
    (hdt0 : 0 ≤ dt) (hdt1 : dt ≤ 1) (h0 : 0 ≤ thetaM) (h1 : thetaM ≤ 3.5) :
    0 ≤ updateEstimate adapt dt thetaM dist (realMassOf load)
      ∧ updateEstimate adapt dt thetaM dist (realMassOf load) ≤ 3.5 := by
  unfold updateEstimate realMassOf
  cases adapt
  · norm_num
  · cases load <;>
      simp only [Bool.false_eq_true, if_true, if_false] <;>
      by_cases hd : dist > 0.05 <;>
      simp only [if_pos, if_neg, hd, ite_true, ite_false] <;>
      norm_num <;>
      constructor <;>
      nlinarith [mul_nonneg h0 hdt0,
        mul_nonneg (sub_nonneg.mpr h1) hdt0,
        mul_nonneg (sub_nonneg.mpr h1) (sub_nonneg.mpr hdt1),
        mul_nonneg h0 (sub_nonneg.mpr hdt1)]

/-- One tick keeps `thetaM` in `[0, 3.5]`. -/
theorem tick_thetaM_mem (cfg : Config) (s : SimState)
    (h0 : 0 ≤ s.params.thetaM) (h1 : s.params.thetaM ≤ 3.5) :
    0 ≤ ((updatePhysics cfg s).1).params.thetaM
      ∧ ((updatePhysics cfg s).1).params.thetaM ≤ 3.5 := by
  by_cases hp : cfg.isPlaying = false
  · rw [updatePhysics_paused cfg s hp]
    exact ⟨h0, h1⟩
  · obtain ⟨dist, hdist⟩ := updatePhysics_thetaM cfg s hp
    rw [hdist]
    exact updateEstimate_mem cfg.isAdaptive cfg.hasLoad _ _ dist
      (by norm_num [FPS]) (by norm_num [FPS]) h0 h1

/-- Claim C3: along every run of ticks from the reset state
(`thetaM = 1.0`), under any per-tick configuration sequence, `thetaM`
stays within the fixed bound `[0, 3.5]` — in particular it never exceeds
`max(1.0, trueMass) = 3.5`, so the leakage-stabilised update never drives
the estimate to grow without bound. -/
theorem C3_thetaM_bounded (cfgs : List Config) :
    0 ≤ (runSim cfgs initState).params.thetaM
      ∧ (runSim cfgs initState).params.thetaM ≤ 3.5 := by
  suffices h : ∀ s : SimState, 0 ≤ s.params.thetaM → s.params.thetaM ≤ 3.5 →
      0 ≤ (runSim cfgs s).params.thetaM ∧ (runSim cfgs s).params.thetaM ≤ 3.5 by
    exact h initState (by norm_num [initState]) (by norm_num [initState])
  induction cfgs with
  | nil => exact fun s a b => ⟨a, b⟩
  | cons c rest ih =>
    intro s a b
    rw [runSim]
    obtain ⟨a2, b2⟩ := tick_thetaM_mem c s a b
    exact ih _ a2 b2

/-- Claim C4: in every playing tick with adaptation disabled, `thetaM`
equals exactly 1.0 at the end of the tick, whatever its prior value, the
distance error or the load. -/
theorem C4_static_estimate (cfg : Config) (s : SimState)
    (hp : cfg.isPlaying = true) (ha : cfg.isAdaptive = false) :
    ((updatePhysics cfg s).1).params.thetaM = 1.0 := by
  have hp2 : ¬(cfg.isPlaying = false) := by simp [hp]
  obtain ⟨dist, hdist⟩ := updatePhysics_thetaM cfg s hp2
  rw [hdist, ha, updateEstimate]
  simp

/-- Witness for C4 on the reset state under a playing, non-adaptive
configuration. -/
theorem C4_static_estimate_witness :
    (Config.mk false false TrajectoryType.CIRCLE true).isPlaying = true
      ∧ (Config.mk false false TrajectoryType.CIRCLE true).isAdaptive = false
      ∧ ((updatePhysics (Config.mk false false TrajectoryType.CIRCLE true)
            initState).1).params.thetaM = 1.0 :=
  ⟨rfl, rfl,
    C4_static_estimate (Config.mk false false TrajectoryType.CIRCLE true)
      initState rfl rfl⟩

/-- One tick keeps both trail lengths at most `TRAIL_LENGTH`. -/
theorem tick_trail_le (cfg : Config) (s : SimState)
    (h1 : s.trail.length ≤ TRAIL_LENGTH)
    (h2 : s.refTrail.length ≤ TRAIL_LENGTH) :
    ((updatePhysics cfg s).1).trail.length ≤ TRAIL_LENGTH
      ∧ ((updatePhysics cfg s).1).refTrail.length ≤ TRAIL_LENGTH := by
  rcases updatePhysics_trail_cases cfg s with ⟨e1, e2⟩ | ⟨p, q, e1, e2⟩
  · rw [e1, e2]
    exact ⟨h1, h2⟩
  · rw [e1, e2, pushTrim_length, pushTrim_length]
    constructor
    · split <;> omega
    · split <;> omega

/-- Claim C8: starting from empty trails, after every tick of every run
each of the two trail buffers holds at most 200 entries. -/
theorem C8_trail_bounded (cfgs : List Config) :
    (runSim cfgs initState).trail.length ≤ 200
      ∧ (runSim cfgs initState).refTrail.length ≤ 200 := by
  suffices h : ∀ s : SimState, s.trail.length ≤ TRAIL_LENGTH →
      s.refTrail.length ≤ TRAIL_LENGTH →
      (runSim cfgs s).trail.length ≤ TRAIL_LENGTH
        ∧ (runSim cfgs s).refTrail.length ≤ TRAIL_LENGTH by
    have h0 := h initState (by simp [initState]) (by simp [initState])
    simpa [TRAIL_LENGTH] using h0
  induction cfgs with
  | nil => exact fun s a b => ⟨a, b⟩
  | cons c rest ih =>
    intro s a b
    rw [runSim]
    obtain ⟨a2, b2⟩ := tick_trail_le c s a b
    exact ih _ a2 b2

/-- Claim C10: after every tick the two trail buffers have the same
length — both are appended to in the same ticks and trimmed under the same
capacity rule, so starting from two empty buffers they stay in lockstep. -/
theorem C10_trails_lockstep (cfgs : List Config) :
    (runSim cfgs initState).trail.length
      = (runSim cfgs initState).refTrail.length := by
  suffices h : ∀ s : SimState, s.trail.length = s.refTrail.length →
      (runSim cfgs s).trail.length = (runSim cfgs s).refTrail.length by
    exact h initState (by simp [initState])
  induction cfgs with
  | nil => exact fun s a => a
  | cons c rest ih =>
    intro s a
    rw [runSim]
    refine ih _ ?_
    rcases updatePhysics_trail_cases c s with ⟨e1, e2⟩ | ⟨p, q, e1, e2⟩
    · rw [e1, e2, a]
    · rw [e1, e2, pushTrim_length, pushTrim_length, a]

/-- Claim C9: while `running = false`, any number of ticks leaves the
entire simulation state (pose, clock, estimate, trails) unchanged, and no
single paused tick emits a telemetry sample. -/
theorem C9_pause_frozen (cfgs : List Config) (s : SimState)
    (h : ∀ c ∈ cfgs, c.isPlaying = false) :
    runSim cfgs s = s ∧ ∀ c ∈ cfgs, updatePhysics c s = (s, none) := by
  constructor
  · induction cfgs with
    | nil => rw [runSim]
    | cons c rest ih =>
      rw [runSim, updatePhysics_paused c s (h c (List.mem_cons_self c rest))]
      exact ih fun c2 hc2 => h c2 (List.mem_cons_of_mem c hc2)
  · exact fun c hc => updatePhysics_paused c s (h c hc)

/-- Witness for C9: one paused tick on the reset state. -/
theorem C9_pause_frozen_witness :
    (∀ c ∈ [Config.mk false false TrajectoryType.CIRCLE false],
        c.isPlaying = false)
      ∧ (runSim [Config.mk false false TrajectoryType.CIRCLE false] initState
            = initState
        ∧ ∀ c ∈ [Config.mk false false TrajectoryType.CIRCLE false],
            updatePhysics c initState = (initState, none)) :=
  ⟨by simp, C9_pause_frozen _ initState (by simp)⟩

end RobotSim
